import Mathlib

/-!
Verification of the vertex-client order-book reconciliation core.

The development shallowly embeds the three source files:
* `model.rs` — the `OrderBook` container (two `BTreeMap<u128, u128>` sides),
  its mutation operations `from_snapshot` and `update`, and the
  `validate_orderbook` invariant check (an `assert!`, modelled as an
  `Option`-returning validation: `none` is the fatal panic).
* `main.rs`  — the `build_orderbook` reconciliation loop, modelled as a
  per-event step function `stepBookDepth` over an explicit state
  (`RecState`) together with the textual outputs the iteration emits.
* `listener.rs` — the `Subscribe` reconnecting stream client, modelled as
  a recursion over a script of connection/frame events that records the
  trace of connection attempts and queue pushes.

A `BTreeMap<u128, u128>` side is embedded as an association list
`List (Nat × Nat)` with no duplicate keys; `iter().next_back()` /
`iter().next()` (largest / smallest key of the B-tree) become the maximum
/ minimum over the keys, which is order-of-representation independent.
`u128` values are embedded as `Nat` (no arithmetic is performed on them;
the only width-dependent site is the `u128::MAX` bound check, embedded
explicitly).
-/

namespace VertexClient

/-- One side of the book: price ↦ quantity pairs (model of `BTreeMap<u128, u128>`). -/
abbrev Side := List (Nat × Nat)

/-- `u128::MAX`, used by the highest-ask bound check in `validate_orderbook`. -/
def U128MAX : Nat := 2 ^ 128 - 1

/-- Model of `BTreeMap::get`: quantity stored at price `p`, if any. -/
def slookup (p : Nat) : Side → Option Nat
  | [] => none
  | (p', q') :: t => if p = p' then some q' else slookup p t

/-- Model of `BTreeMap::insert p q`: overwrite the entry at `p` or add it. -/
def sinsert (p q : Nat) : Side → Side
  | [] => [(p, q)]
  | (p', q') :: t => if p = p' then (p, q) :: t else (p', q') :: sinsert p q t

/-- Model of `BTreeMap::remove p`: drop the entry at `p` if present. -/
def serase (p : Nat) : Side → Side
  | [] => []
  | (p', q') :: t => if p = p' then t else (p', q') :: serase p t

/-- The keys of a side carry no duplicates (always true of a `BTreeMap`). -/
def nodupKeys (s : Side) : Prop := (s.map Prod.fst).Nodup

instance (s : Side) : Decidable (nodupKeys s) := by
  unfold nodupKeys
  infer_instance

/-- `model.rs::OrderBook`: bids and asks, each price ↦ quantity. -/
structure OrderBook where
  bids : Side
  asks : Side
  deriving DecidableEq, Repr

/-- `model.rs::OrderBook::new`. -/
def OrderBook.new : OrderBook := ⟨[], []⟩

/-- `model.rs::BookDepthResponse` with the timestamp strings already parsed
(`.parse::<u128>().expect(..)` in `main.rs`). -/
structure BookDepthResponse where
  min_timestamp : Nat
  max_timestamp : Nat
  last_max_timestamp : Nat
  product_id : Nat
  bids : List (Nat × Nat)
  asks : List (Nat × Nat)
  deriving DecidableEq, Repr

/-- `model.rs::MarketLiquidityData` (the `data` field of
`MarketLiquidityResponse`) with the timestamp string already parsed. -/
structure MarketLiquidityData where
  bids : List (Nat × Nat)
  asks : List (Nat × Nat)
  timestamp : Nat
  deriving DecidableEq, Repr

/-- One `(price, quantity)` pair of the per-pair loop bodies in
`from_snapshot` and `update` (`model.rs` lines 91–105 and 112–127):
quantity `0` removes the level, anything else inserts/overwrites. -/
def applyChange (s : Side) (pq : Nat × Nat) : Side :=
  if pq.2 = 0 then serase pq.1 s else sinsert pq.1 pq.2 s

/-- Apply a whole change list to one side, in order. -/
def updateSide (s : Side) (changes : List (Nat × Nat)) : Side :=
  changes.foldl applyChange s

/-- The mutation performed by `OrderBook::update` before validation. -/
def rawUpdate (b : OrderBook) (d : BookDepthResponse) : OrderBook :=
  ⟨updateSide b.bids d.bids, updateSide b.asks d.asks⟩

/-- The mutation performed by `OrderBook::from_snapshot` before validation:
both sides are cleared first, so the result only depends on the snapshot. -/
def rawFromSnapshot (snap : MarketLiquidityData) : OrderBook :=
  ⟨updateSide [] snap.bids, updateSide [] snap.asks⟩

/-- `bids.iter().next_back()`: the largest price of a side. -/
def maxKey (s : Side) : Option Nat := (s.map Prod.fst).max?

/-- `asks.iter().next()`: the smallest price of a side. -/
def minKey (s : Side) : Option Nat := (s.map Prod.fst).min?

/-- First assert of `validate_orderbook`: if both sides are non-empty,
the highest bid is strictly below the lowest ask. -/
def bidAskCheck (b : OrderBook) : Bool :=
  match maxKey b.bids, minKey b.asks with
  | some hb, some la => decide (hb < la)
  | _, _ => true

/-- Second assert of `validate_orderbook`: every stored quantity
(bids chained with asks) is positive. -/
def qtyCheck (b : OrderBook) : Bool :=
  (b.bids ++ b.asks).all fun pq => decide (0 < pq.2)

/-- Third assert of `validate_orderbook`: the lowest bid price is positive. -/
def bidPriceCheck (b : OrderBook) : Bool :=
  match minKey b.bids with
  | some p => decide (0 < p)
  | none => true

/-- Fourth assert of `validate_orderbook`: the highest ask price is
strictly below `u128::MAX`. -/
def askPriceCheck (b : OrderBook) : Bool :=
  match maxKey b.asks with
  | some p => decide (p < U128MAX)
  | none => true

/-- `model.rs::OrderBook::validate_orderbook`, as the conjunction of its
four asserts; `false` means some `assert!` fires (a panic). -/
def validate_orderbook (b : OrderBook) : Bool :=
  bidAskCheck b && qtyCheck b && bidPriceCheck b && askPriceCheck b

/-- `model.rs::OrderBook::update`: apply the delta's changes to both sides,
then validate; `none` models the fatal `assert!` panic. -/
def update (b : OrderBook) (d : BookDepthResponse) : Option OrderBook :=
  let b' := rawUpdate b d
  if validate_orderbook b' then some b' else none

/-- `model.rs::OrderBook::from_snapshot`: clear both sides, replay the
snapshot levels, then validate; `none` models the fatal `assert!` panic.
The receiver `_b` is the book being overwritten; because both sides are
cleared first the result never depends on it. -/
def from_snapshot (_b : OrderBook) (snap : MarketLiquidityData) : Option OrderBook :=
  let b' := rawFromSnapshot snap
  if validate_orderbook b' then some b' else none

/-- The state owned by `main.rs::build_orderbook`: the book, the current
`snapshot_timestamp`, and `prev_timestamp` (the spec's
`prev_max_timestamp`). -/
structure RecState where
  book : OrderBook
  snapshotTimestamp : Nat
  prevTimestamp : Option Nat
  deriving DecidableEq, Repr

/-- The user-visible outputs a loop iteration can emit:
`render b` stands for `print!("{}", order_book.visualize())` with `b` the
book being rendered (`main.rs` line 67), `gapDiagnostic` for the
`"dropped a book depth update, retrieving snapshot..."` line. -/
inductive Output where
  | render (b : OrderBook)
  | gapDiagnostic
  deriving DecidableEq, Repr

/-- Whether an output is a rendering of the book. -/
def isRender : Output → Bool
  | Output.render _ => true
  | Output.gapDiagnostic => false

/-- One iteration of `build_orderbook`'s loop on a `BookDepth` event
(`main.rs` lines 56–76).  `snap` is the snapshot `query_market_liquidity`
would return if the gap branch fetches one (the fetcher never fails
outwardly).  The result is the new state and the outputs printed, `none`
modelling a fatal panic inside `update`/`from_snapshot`. -/
def stepBookDepth (st : RecState) (d : BookDepthResponse) (snap : MarketLiquidityData) :
    Option (RecState × List Output) :=
  if d.last_max_timestamp ≤ st.snapshotTimestamp then
    some (st, [])
  else if st.prevTimestamp = none ∨ st.prevTimestamp = some d.last_max_timestamp then
    (update st.book d).map fun b' =>
      (⟨b', st.snapshotTimestamp, some d.max_timestamp⟩, [Output.render b'])
  else
    (from_snapshot st.book snap).map fun b' =>
      (⟨b', snap.timestamp, st.prevTimestamp⟩, [Output.gapDiagnostic])

/-- Startup of `build_orderbook` (`main.rs` lines 44–52): fetch a snapshot,
record its timestamp, leave `prev_timestamp` unset, populate the book.
No output is printed.  `none` models a panic in `from_snapshot`. -/
def initRec (snap : MarketLiquidityData) : Option RecState :=
  (from_snapshot OrderBook.new snap).map fun b => ⟨b, snap.timestamp, none⟩

/-!
Model of `listener.rs::Subscribe`.  The environment is a script: each
outer-loop iteration consumes one `ConnEvent`; an established connection
carries the list of `FrameEvent`s the inner `select!` loop will see.
-/

/-- One event of the inner `select!` loop of `Subscribe`
(`listener.rs` lines 53–96). -/
inductive FrameEvent where
  /-- Ping timer fired and the ping frame was sent successfully. -/
  | pingOk
  /-- Ping timer fired and sending failed: breaks the inner loop. -/
  | pingFail
  /-- A text frame parsed successfully; `queueClosed` tells whether the
  queue's receiving side has been dropped when the push is attempted. -/
  | textOk (queueClosed : Bool)
  /-- A text frame that fails to parse: logged and skipped. -/
  | textParseFail
  /-- A non-text frame: ignored. -/
  | nonText
  /-- `ws.next()` returned an error: breaks the inner loop. -/
  | wsError
  /-- The stream ended cleanly: breaks the inner loop. -/
  | wsClosed
  deriving DecidableEq, Repr

/-- One iteration of the outer loop of `Subscribe` (`listener.rs` lines
29–97): either the connection attempt fails, or it succeeds and the
subscription send either fails (`initialSendFail`) or the inner loop runs
over `frames`. -/
inductive ConnEvent where
  | connectFail
  | connect (initialSendFail : Bool) (frames : List FrameEvent)
  deriving DecidableEq, Repr

/-- Observable actions of the connector. -/
inductive TraceItem where
  /-- A connection was attempted (top of the outer loop). -/
  | connectAttempt
  /-- A parsed message was pushed onto the queue. -/
  | pushed
  /-- A push found the queue's receiving side closed
  (the `"Receiver dropped"` branch, `listener.rs` lines 69–72). -/
  | receiverDropped
  deriving DecidableEq, Repr

/-- Run the inner `select!` loop over a list of frame events.  Returns the
trace emitted and whether the loop was broken out of (`true`) or is still
suspended waiting for the next frame (`false`, script exhausted). -/
def runInner : List FrameEvent → List TraceItem × Bool
  | [] => ([], false)
  | e :: rest =>
    match e with
    | FrameEvent.pingOk => runInner rest
    | FrameEvent.pingFail => ([], true)
    | FrameEvent.textOk false =>
      let r := runInner rest
      (TraceItem.pushed :: r.1, r.2)
    | FrameEvent.textOk true => ([TraceItem.receiverDropped], true)
    | FrameEvent.textParseFail => runInner rest
    | FrameEvent.nonText => runInner rest
    | FrameEvent.wsError => ([], true)
    | FrameEvent.wsClosed => ([], true)

/-- Run `Subscribe` over a script of connection events.  Returns the trace
and whether the function returned (`true`, the component terminated) or is
still running/suspended (`false`).  Faithful control flow: the initial
subscription send failing `break`s the **outer** loop (function returns);
every `break` inside the inner loop — including the receiver-dropped
one — falls back to the outer loop, which reconnects. -/
def runSubscribe : List ConnEvent → List TraceItem × Bool
  | [] => ([], false)
  | ConnEvent.connectFail :: rest =>
    let r := runSubscribe rest
    (TraceItem.connectAttempt :: r.1, r.2)
  | ConnEvent.connect initialSendFail frames :: rest =>
    if initialSendFail then
      ([TraceItem.connectAttempt], true)
    else
      let i := runInner frames
      if i.2 then
        let r := runSubscribe rest
        (TraceItem.connectAttempt :: (i.1 ++ r.1), r.2)
      else
        (TraceItem.connectAttempt :: i.1, false)

/-! ### Basic lemmas about the side operations -/

theorem slookup_eq_none_of_not_mem_keys {p : Nat} {s : Side}
    (h : p ∉ s.map Prod.fst) : slookup p s = none := by
  induction s with
  | nil => rfl
  | cons hd t ih =>
    obtain ⟨p', q'⟩ := hd
    simp only [List.map_cons, List.mem_cons] at h
    push_neg at h
    simp only [slookup, if_neg h.1]
    exact ih h.2

theorem mem_of_mem_serase {x : Nat × Nat} {p : Nat} {s : Side}
    (h : x ∈ serase p s) : x ∈ s := by
  induction s with
  | nil => simp [serase] at h
  | cons hd t ih =>
    obtain ⟨p', q'⟩ := hd
    simp only [serase] at h
    by_cases hp : p = p'
    · rw [if_pos hp] at h
      exact List.mem_cons_of_mem _ h
    · rw [if_neg hp] at h
      rcases List.mem_cons.mp h with h1 | h2
      · exact List.mem_cons.mpr (Or.inl h1)
      · exact List.mem_cons_of_mem _ (ih h2)

theorem mem_sinsert {x : Nat × Nat} {p q : Nat} {s : Side}
    (h : x ∈ sinsert p q s) : x = (p, q) ∨ x ∈ s := by
  induction s with
  | nil => simpa [sinsert] using h
  | cons hd t ih =>
    obtain ⟨p', q'⟩ := hd
    simp only [sinsert] at h
    by_cases hp : p = p'
    · rw [if_pos hp] at h
      rcases List.mem_cons.mp h with h1 | h2
      · exact Or.inl h1
      · exact Or.inr (List.mem_cons_of_mem _ h2)
    · rw [if_neg hp] at h
      rcases List.mem_cons.mp h with h1 | h2
      · exact Or.inr (List.mem_cons.mpr (Or.inl h1))
      · rcases ih h2 with h3 | h4
        · exact Or.inl h3
        · exact Or.inr (List.mem_cons_of_mem _ h4)

theorem slookup_sinsert_self (p q : Nat) (s : Side) :
    slookup p (sinsert p q s) = some q := by
  induction s with
  | nil => simp [sinsert, slookup]
  | cons hd t ih =>
    obtain ⟨p', q'⟩ := hd
    simp only [sinsert]
    by_cases hp : p = p'
    · rw [if_pos hp]
      simp [slookup]
    · rw [if_neg hp]
      simp only [slookup, if_neg hp]
      exact ih

theorem slookup_sinsert_ne (p q p' : Nat) (s : Side) (h : p' ≠ p) :
    slookup p' (sinsert p q s) = slookup p' s := by
  induction s with
  | nil => simp [sinsert, slookup, if_neg h]
  | cons hd t ih =>
    obtain ⟨p₁, q₁⟩ := hd
    simp only [sinsert]
    by_cases hp : p = p₁
    · rw [if_pos hp]
      subst hp
      simp only [slookup, if_neg h]
    · rw [if_neg hp]
      by_cases hp' : p' = p₁
      · simp only [slookup, if_pos hp']
      · simp only [slookup, if_neg hp']
        exact ih

theorem slookup_serase_ne (p p' : Nat) (s : Side) (h : p' ≠ p) :
    slookup p' (serase p s) = slookup p' s := by
  induction s with
  | nil => simp [serase]
  | cons hd t ih =>
    obtain ⟨p₁, q₁⟩ := hd
    simp only [serase]
    by_cases hp : p = p₁
    · rw [if_pos hp]
      subst hp
      simp only [slookup, if_neg h]
    · rw [if_neg hp]
      by_cases hp' : p' = p₁
      · simp only [slookup, if_pos hp']
      · simp only [slookup, if_neg hp']
        exact ih

theorem slookup_serase_self (p : Nat) (s : Side) (h : nodupKeys s) :
    slookup p (serase p s) = none := by
  induction s with
  | nil => rfl
  | cons hd t ih =>
    obtain ⟨p₁, q₁⟩ := hd
    unfold nodupKeys at h
    simp only [List.map_cons, List.nodup_cons] at h
    simp only [serase]
    by_cases hp : p = p₁
    · rw [if_pos hp]
      subst hp
      exact slookup_eq_none_of_not_mem_keys h.1
    · rw [if_neg hp]
      simp only [slookup, if_neg hp]
      exact ih h.2

theorem serase_eq_of_slookup_none (p : Nat) (s : Side) (h : slookup p s = none) :
    serase p s = s := by
  induction s with
  | nil => rfl
  | cons hd t ih =>
    obtain ⟨p₁, q₁⟩ := hd
    simp only [slookup] at h
    by_cases hp : p = p₁
    · rw [if_pos hp] at h
      exact absurd h (by simp)
    · rw [if_neg hp] at h
      simp only [serase, if_neg hp]
      rw [ih h]

/-! ### Positivity preservation -/

theorem pos_of_mem_applyChange {s : Side} {pq : Nat × Nat} {x : Nat × Nat}
    (h : ∀ y ∈ s, 0 < y.2) (hx : x ∈ applyChange s pq) : 0 < x.2 := by
  unfold applyChange at hx
  by_cases hq : pq.2 = 0
  · rw [if_pos hq] at hx
    exact h x (mem_of_mem_serase hx)
  · rw [if_neg hq] at hx
    rcases mem_sinsert hx with h1 | h2
    · rw [h1]
      exact Nat.pos_of_ne_zero hq
    · exact h x h2

theorem pos_of_mem_updateSide {changes : List (Nat × Nat)} {s : Side}
    (h : ∀ y ∈ s, 0 < y.2) : ∀ x ∈ updateSide s changes, 0 < x.2 := by
  induction changes generalizing s with
  | nil => exact h
  | cons c t ih =>
    intro x hx
    rw [updateSide, List.foldl_cons] at hx
    exact ih (fun y hy => pos_of_mem_applyChange h hy) x hx

/-! ### What a passed validation guarantees -/

theorem qtyCheck_eq_true_iff (b : OrderBook) :
    qtyCheck b = true ↔ ∀ pq ∈ b.bids ++ b.asks, 0 < pq.2 := by
  unfold qtyCheck
  rw [List.all_eq_true]
  constructor
  · intro h pq hm
    exact of_decide_eq_true (h pq hm)
  · intro h pq hm
    exact decide_eq_true (h pq hm)

theorem validate_sound {b : OrderBook} (h : validate_orderbook b = true) :
    (∀ pq ∈ b.bids ++ b.asks, 0 < pq.2) ∧
    (∀ hb la, maxKey b.bids = some hb → minKey b.asks = some la → hb < la) := by
  unfold validate_orderbook at h
  simp only [Bool.and_eq_true] at h
  obtain ⟨⟨⟨hba, hqty⟩, _⟩, _⟩ := h
  refine ⟨(qtyCheck_eq_true_iff b).mp hqty, ?_⟩
  intro hb la hmax hmin
  unfold bidAskCheck at hba
  rw [hmax, hmin] at hba
  exact of_decide_eq_true hba

/-! ### Claim theorems -/

/-- Claim C1: in the `Synced` state, for a delta pulled from the queue with
`last_max_timestamp > snapshot_timestamp`: if `prev_max_timestamp` is unset
or equals the delta's `last_max_timestamp`, the delta is applied to the
order book and `prev_max_timestamp` becomes the delta's `max_timestamp`
(with `snapshot_timestamp` untouched); otherwise no delta is applied and
the loop resynchronizes: the book is rebuilt from a freshly fetched
snapshot and `snapshot_timestamp` becomes that snapshot's timestamp. -/
theorem synced_contiguous_applies_and_gap_resyncs
    (st st' : RecState) (outs : List Output)
    (d : BookDepthResponse) (snap : MarketLiquidityData)
    (hgt : st.snapshotTimestamp < d.last_max_timestamp)
    (hstep : stepBookDepth st d snap = some (st', outs)) :
    ((st.prevTimestamp = none ∨ st.prevTimestamp = some d.last_max_timestamp) →
      update st.book d = some st'.book ∧
      st'.prevTimestamp = some d.max_timestamp ∧
      st'.snapshotTimestamp = st.snapshotTimestamp) ∧
    (st.prevTimestamp ≠ none → st.prevTimestamp ≠ some d.last_max_timestamp →
      from_snapshot st.book snap = some st'.book ∧
      st'.snapshotTimestamp = snap.timestamp) := by
  unfold stepBookDepth at hstep
  rw [if_neg (Nat.not_le.mpr hgt)] at hstep
  constructor
  · intro hc
    rw [if_pos hc, Option.map_eq_some'] at hstep
    obtain ⟨b', hb', heq⟩ := hstep
    injection heq with h1 h2
    subst h1
    exact ⟨hb', rfl, rfl⟩
  · intro hn hne
    have hc : ¬ (st.prevTimestamp = none ∨ st.prevTimestamp = some d.last_max_timestamp) := by
      intro hor
      rcases hor with h | h
      · exact hn h
      · exact hne h
    rw [if_neg hc, Option.map_eq_some'] at hstep
    obtain ⟨b', hb', heq⟩ := hstep
    injection heq with h1 h2
    subst h1
    exact ⟨hb', rfl⟩

/-- Witness for C1: a concrete contiguous delta is applied and sets
`prev_max_timestamp` to its `max_timestamp`. -/
theorem synced_contiguous_applies_and_gap_resyncs_witness :
    update (⟨[(50, 2)], [(60, 3)]⟩ : OrderBook) ⟨0, 30, 20, 2, [], []⟩ =
        some ⟨[(50, 2)], [(60, 3)]⟩ ∧
      (some 30 : Option Nat) = some 30 ∧ (10 : Nat) = 10 :=
  (synced_contiguous_applies_and_gap_resyncs
      ⟨⟨[(50, 2)], [(60, 3)]⟩, 10, none⟩
      ⟨⟨[(50, 2)], [(60, 3)]⟩, 10, some 30⟩
      [Output.render ⟨[(50, 2)], [(60, 3)]⟩]
      ⟨0, 30, 20, 2, [], []⟩ ⟨[], [], 0⟩
      (by decide) (by decide)).1 (Or.inl rfl)

/-- Claim C2: a delta whose `last_max_timestamp` is at most the current
`snapshot_timestamp` is discarded: the whole reconciliation state (book
and `prev_max_timestamp` included) is unchanged and nothing is printed. -/
theorem presnapshot_delta_discarded (st : RecState) (d : BookDepthResponse)
    (snap : MarketLiquidityData)
    (h : d.last_max_timestamp ≤ st.snapshotTimestamp) :
    stepBookDepth st d snap = some (st, []) := by
  unfold stepBookDepth
  rw [if_pos h]

/-- Witness for C2: a concrete pre-snapshot delta is dropped whole. -/
theorem presnapshot_delta_discarded_witness :
    (150 : Nat) ≤ 200 ∧
      stepBookDepth ⟨⟨[(50, 2)], [(60, 3)]⟩, 200, none⟩
          ⟨0, 160, 150, 2, [(1, 1)], []⟩ ⟨[], [], 0⟩ =
        some (⟨⟨[(50, 2)], [(60, 3)]⟩, 200, none⟩, []) :=
  ⟨by decide,
    presnapshot_delta_discarded ⟨⟨[(50, 2)], [(60, 3)]⟩, 200, none⟩
      ⟨0, 160, 150, 2, [(1, 1)], []⟩ ⟨[], [], 0⟩ (by decide)⟩

/-- Claim C3 (code bug): the gap branch of `build_orderbook` fetches a
fresh snapshot, updates `snapshot_timestamp` and rebuilds the book, but —
unlike the initial `AwaitingSnapshot` procedure — it does NOT clear
`prev_timestamp`: here, after resyncing on a gap (previous token 100,
delta token 150, fresh snapshot timestamp 200), `prev_max_timestamp` is
still `some 100` instead of `none`. -/
theorem resync_retains_prev_max_timestamp :
    (stepBookDepth ⟨⟨[(40, 1)], [(60, 1)]⟩, 50, some 100⟩
        ⟨0, 160, 150, 2, [], []⟩ ⟨[(45, 1)], [(55, 1)], 200⟩).map
      (fun r => (r.1.prevTimestamp, r.1.snapshotTimestamp, r.1.book)) =
      some (some 100, 200, ⟨[(45, 1)], [(55, 1)]⟩) := by decide

/-- Counterexample to C4: starting from the snapshot
`{timestamp 100, bids [(50, 2)], asks [(60, 2)]}`, the delta
`{last_max_timestamp 100, max_timestamp 110, bids [(50, 0)], asks [(65, 1)]}`
is NOT applied: its `last_max_timestamp` (100) is `<=` the snapshot
timestamp (100), so `build_orderbook` drops it — bid 50 keeps quantity 2,
ask 65 is absent, and `prev_max_timestamp` stays unset. -/
theorem scenario_delta_dropped_counterexample :
    ((initRec ⟨[(50, 2)], [(60, 2)], 100⟩).bind fun st =>
        stepBookDepth st ⟨0, 110, 100, 2, [(50, 0)], [(65, 1)]⟩
          ⟨[(50, 2)], [(60, 2)], 100⟩).map
        (fun r => (slookup 50 r.1.book.bids, slookup 65 r.1.book.asks,
          r.1.prevTimestamp)) =
      some (some 2, none, none) ∧
    ¬ (((initRec ⟨[(50, 2)], [(60, 2)], 100⟩).bind fun st =>
        stepBookDepth st ⟨0, 110, 100, 2, [(50, 0)], [(65, 1)]⟩
          ⟨[(50, 2)], [(60, 2)], 100⟩).map
        (fun r => (slookup 50 r.1.book.bids, slookup 65 r.1.book.asks,
          r.1.prevTimestamp)) =
      some (none, some 1, some 110)) := by decide

/-- Claim C4 as amended: the snapshot
`{timestamp 100, bids [(50, 2)], asks [(60, 2)]}` yields a book with bid
50 quantity 2 and ask 60 quantity 2; the delta with
`last_max_timestamp 100` (equal to the snapshot timestamp) is discarded
whole; a delta with `last_max_timestamp 101 > 100` instead produces the
originally claimed result: bid 50 removed, ask 65 quantity 1 added, and
`prev_max_timestamp` set to 110. -/
theorem scenario_snapshot_then_delta_amended :
    ((initRec ⟨[(50, 2)], [(60, 2)], 100⟩).map fun st =>
        (slookup 50 st.book.bids, slookup 60 st.book.asks)) =
      some (some 2, some 2) ∧
    ((initRec ⟨[(50, 2)], [(60, 2)], 100⟩).bind fun st =>
        stepBookDepth st ⟨0, 110, 100, 2, [(50, 0)], [(65, 1)]⟩
          ⟨[(50, 2)], [(60, 2)], 100⟩) =
      some (⟨⟨[(50, 2)], [(60, 2)]⟩, 100, none⟩, []) ∧
    ((initRec ⟨[(50, 2)], [(60, 2)], 100⟩).bind fun st =>
        stepBookDepth st ⟨0, 110, 101, 2, [(50, 0)], [(65, 1)]⟩
          ⟨[(50, 2)], [(60, 2)], 100⟩).map
        (fun r => (slookup 50 r.1.book.bids, slookup 65 r.1.book.asks,
          r.1.prevTimestamp)) =
      some (none, some 1, some 110) := by decide

/-- Claim C5: whenever `update` (apply_delta) or `from_snapshot`
(apply_snapshot) completes without the fatal condition (returns `some`),
every stored level has positive quantity and, with both sides non-empty,
the highest bid is strictly below the lowest ask; conversely a violation
of these invariants by the mutation is surfaced as the fatal condition
(`none`, the `assert!` panic) rather than continuing. -/
theorem mutation_invariants_or_fatal (b b' : OrderBook) (d : BookDepthResponse)
    (snap : MarketLiquidityData)
    (h : update b d = some b' ∨ from_snapshot b snap = some b') :
    ((∀ pq ∈ b'.bids ++ b'.asks, 0 < pq.2) ∧
      (∀ hb la, maxKey b'.bids = some hb → minKey b'.asks = some la → hb < la)) ∧
    (¬ ((∀ pq ∈ (rawUpdate b d).bids ++ (rawUpdate b d).asks, 0 < pq.2) ∧
        (∀ hb la, maxKey (rawUpdate b d).bids = some hb →
          minKey (rawUpdate b d).asks = some la → hb < la)) →
      update b d = none) ∧
    (¬ ((∀ pq ∈ (rawFromSnapshot snap).bids ++ (rawFromSnapshot snap).asks, 0 < pq.2) ∧
        (∀ hb la, maxKey (rawFromSnapshot snap).bids = some hb →
          minKey (rawFromSnapshot snap).asks = some la → hb < la)) →
      from_snapshot b snap = none) := by
  refine ⟨?_, ?_, ?_⟩
  · rcases h with h | h
    · simp only [update] at h
      split at h
      next hv =>
        injection h with h1
        subst h1
        exact validate_sound hv
      next hv => exact absurd h (by simp)
    · simp only [from_snapshot] at h
      split at h
      next hv =>
        injection h with h1
        subst h1
        exact validate_sound hv
      next hv => exact absurd h (by simp)
  · intro hviol
    simp only [update]
    split
    next hv => exact absurd (validate_sound hv) hviol
    next hv => rfl
  · intro hviol
    simp only [from_snapshot]
    split
    next hv => exact absurd (validate_sound hv) hviol
    next hv => rfl

/-- Witness for C5: a concrete delta applied to the empty book passes
validation, and the resulting levels satisfy the invariants. -/
theorem mutation_invariants_or_fatal_witness :
    update OrderBook.new ⟨0, 30, 20, 2, [(50, 2)], [(60, 3)]⟩ =
        some ⟨[(50, 2)], [(60, 3)]⟩ ∧
      (0 : Nat) < 2 ∧ (50 : Nat) < 60 :=
  ⟨by decide,
    (mutation_invariants_or_fatal OrderBook.new ⟨[(50, 2)], [(60, 3)]⟩
      ⟨0, 30, 20, 2, [(50, 2)], [(60, 3)]⟩ ⟨[], [], 0⟩
      (Or.inl (by decide))).1.1 (50, 2) (by decide),
    (mutation_invariants_or_fatal OrderBook.new ⟨[(50, 2)], [(60, 3)]⟩
      ⟨0, 30, 20, 2, [(50, 2)], [(60, 3)]⟩ ⟨[], [], 0⟩
      (Or.inl (by decide))).1.2 50 60 (by decide) (by decide)⟩

/-- Claim C6: one `(price, quantity)` pair processed by `apply_delta` on a
side (whose keys, being a `BTreeMap`'s, carry no duplicates): quantity 0
removes the level at that price — a complete no-op when the level is
absent — and a positive quantity inserts or overwrites the level at that
price; other prices are never affected. -/
theorem applyChange_pair_semantics (s : Side) (p q p' : Nat)
    (hnd : nodupKeys s) :
    (q = 0 → slookup p (applyChange s (p, q)) = none ∧
      (slookup p s = none → applyChange s (p, q) = s)) ∧
    (0 < q → slookup p (applyChange s (p, q)) = some q) ∧
    (p' ≠ p → slookup p' (applyChange s (p, q)) = slookup p' s) := by
  refine ⟨?_, ?_, ?_⟩
  · intro hq
    unfold applyChange
    split
    next =>
      exact ⟨slookup_serase_self p s hnd, fun hnone => serase_eq_of_slookup_none p s hnone⟩
    next hne => exact absurd hq hne
  · intro hq
    unfold applyChange
    split
    next hz => exact absurd hz (Nat.pos_iff_ne_zero.mp hq)
    next => exact slookup_sinsert_self p q s
  · intro hne
    unfold applyChange
    split
    next => exact slookup_serase_ne p p' s hne
    next => exact slookup_sinsert_ne p q p' s hne

/-- Witness for C6: quantity 0 deletes a present level, a positive
quantity overwrites it, and an untouched price is preserved. -/
theorem applyChange_pair_semantics_witness :
    slookup 50 (applyChange [(50, 2)] (50, 0)) = none ∧
    slookup 50 (applyChange [(50, 2)] (50, 3)) = some 3 ∧
    slookup 60 (applyChange [(50, 2)] (50, 3)) = slookup 60 [(50, 2)] :=
  ⟨((applyChange_pair_semantics [(50, 2)] 50 0 60 (by decide)).1 rfl).1,
    (applyChange_pair_semantics [(50, 2)] 50 3 60 (by decide)).2.1 (by decide),
    (applyChange_pair_semantics [(50, 2)] 50 3 60 (by decide)).2.2 (by decide)⟩

/-- Claim C7: `apply_snapshot` is idempotent — for every snapshot and every
starting book, applying the snapshot twice in a row (the second application
running on the first's result) yields exactly what applying it once does,
because both sides are cleared first and the result never depends on the
prior book. -/
theorem from_snapshot_idempotent (b : OrderBook) (snap : MarketLiquidityData) :
    (from_snapshot b snap).bind (fun b' => from_snapshot b' snap) =
      from_snapshot b snap := by
  simp only [from_snapshot]
  split
  next h => simp [h]
  next h => simp

/-- Claim C8 (code bug): after a push onto the closed queue
(`"Receiver dropped"`), `Subscribe` does NOT terminate: the `break` at
`listener.rs` line 71 only exits the inner `select!` loop, so the outer
loop reconnects.  Concretely, a script whose first connection sees a
parsed message pushed to a closed queue is followed by a second connection
attempt and further frame processing, and the component has not returned. -/
theorem subscribe_reconnects_after_receiver_dropped :
    runSubscribe [ConnEvent.connect false [FrameEvent.textOk true],
        ConnEvent.connect false [FrameEvent.textOk true]] =
      ([TraceItem.connectAttempt, TraceItem.receiverDropped,
        TraceItem.connectAttempt, TraceItem.receiverDropped], false) := by decide

/-- Counterexample to C9: a resynchronization step applies a fresh
snapshot (the book is rebuilt to the snapshot levels and
`snapshot_timestamp` becomes 300) yet emits no rendering of the book —
only the gap diagnostic line. -/
theorem no_render_on_resync_counterexample :
    (stepBookDepth ⟨⟨[(30, 5)], [(70, 5)]⟩, 60, some 90⟩
        ⟨0, 250, 240, 2, [], []⟩ ⟨[(31, 2)], [(69, 2)], 300⟩).map
      (fun r => (r.2.any isRender, r.2, r.1.book, r.1.snapshotTimestamp)) =
      some (false, [Output.gapDiagnostic], ⟨[(31, 2)], [(69, 2)]⟩, 300) := by decide

/-- Claim C9 as amended: the current book is re-rendered exactly on every
accepted delta (the output is precisely a rendering of the updated book);
snapshot applications — those performed during resynchronization included —
emit no rendering, and discarded deltas emit nothing at all. -/
theorem render_on_accepted_deltas_only (st st' : RecState) (outs : List Output)
    (d : BookDepthResponse) (snap : MarketLiquidityData)
    (hstep : stepBookDepth st d snap = some (st', outs)) :
    (st.snapshotTimestamp < d.last_max_timestamp →
      (st.prevTimestamp = none ∨ st.prevTimestamp = some d.last_max_timestamp) →
      outs = [Output.render st'.book]) ∧
    (st.snapshotTimestamp < d.last_max_timestamp →
      st.prevTimestamp ≠ none → st.prevTimestamp ≠ some d.last_max_timestamp →
      outs.any isRender = false) ∧
    (d.last_max_timestamp ≤ st.snapshotTimestamp → outs = []) := by
  unfold stepBookDepth at hstep
  refine ⟨?_, ?_, ?_⟩
  · intro hgt hc
    rw [if_neg (Nat.not_le.mpr hgt), if_pos hc, Option.map_eq_some'] at hstep
    obtain ⟨b', hb', heq⟩ := hstep
    injection heq with h1 h2
    subst h1
    exact h2.symm
  · intro hgt hn hne
    have hc : ¬ (st.prevTimestamp = none ∨ st.prevTimestamp = some d.last_max_timestamp) := by
      intro hor
      rcases hor with h | h
      · exact hn h
      · exact hne h
    rw [if_neg (Nat.not_le.mpr hgt), if_neg hc, Option.map_eq_some'] at hstep
    obtain ⟨b', hb', heq⟩ := hstep
    injection heq with h1 h2
    subst h2
    rfl
  · intro hle
    rw [if_pos hle] at hstep
    injection hstep with h1
    injection h1 with h2 h3
    exact h3.symm

/-- Witness for C9 (amended): a concrete accepted delta renders the
updated book, and a concrete dropped delta prints nothing. -/
theorem render_on_accepted_deltas_only_witness :
    stepBookDepth ⟨⟨[(50, 2)], [(60, 3)]⟩, 10, none⟩ ⟨0, 30, 20, 2, [], []⟩ ⟨[], [], 0⟩ =
        some (⟨⟨[(50, 2)], [(60, 3)]⟩, 10, some 30⟩,
          [Output.render ⟨[(50, 2)], [(60, 3)]⟩]) ∧
      [Output.render (⟨[(50, 2)], [(60, 3)]⟩ : OrderBook)] =
        [Output.render (⟨⟨[(50, 2)], [(60, 3)]⟩, 10, some 30⟩ : RecState).book] :=
  ⟨by decide,
    (render_on_accepted_deltas_only
      ⟨⟨[(50, 2)], [(60, 3)]⟩, 10, none⟩
      ⟨⟨[(50, 2)], [(60, 3)]⟩, 10, some 30⟩
      [Output.render ⟨[(50, 2)], [(60, 3)]⟩]
      ⟨0, 30, 20, 2, [], []⟩ ⟨[], [], 0⟩
      (by decide)).1 (by decide) (Or.inl rfl)⟩

/-- Claim C10: the zero-quantity assert of `validate_orderbook` is
structurally unreachable — zero-quantity pairs only ever remove levels, so
the raw mutations of `apply_delta` (from any all-positive book) and of
`apply_snapshot` (from the cleared book, for any input) only produce
positive stored quantities, and the positivity component of the runtime
check therefore evaluates to `true` on its own. -/
theorem zero_quantity_assert_unreachable (b : OrderBook) (d : BookDepthResponse)
    (snap : MarketLiquidityData)
    (h : ∀ pq ∈ b.bids ++ b.asks, 0 < pq.2) :
    (∀ pq ∈ (rawUpdate b d).bids ++ (rawUpdate b d).asks, 0 < pq.2) ∧
    (∀ pq ∈ (rawFromSnapshot snap).bids ++ (rawFromSnapshot snap).asks, 0 < pq.2) ∧
    qtyCheck (rawUpdate b d) = true ∧
    qtyCheck (rawFromSnapshot snap) = true := by
  have hb : ∀ pq ∈ b.bids, 0 < pq.2 := fun pq hm => h pq (List.mem_append_left _ hm)
  have ha : ∀ pq ∈ b.asks, 0 < pq.2 := fun pq hm => h pq (List.mem_append_right _ hm)
  have hemp : ∀ pq ∈ ([] : Side), 0 < pq.2 := fun pq hm => absurd hm (List.not_mem_nil pq)
  have h1 : ∀ pq ∈ (rawUpdate b d).bids ++ (rawUpdate b d).asks, 0 < pq.2 := by
    intro pq hm
    rcases List.mem_append.mp hm with hm | hm
    · exact pos_of_mem_updateSide hb pq hm
    · exact pos_of_mem_updateSide ha pq hm
  have h2 : ∀ pq ∈ (rawFromSnapshot snap).bids ++ (rawFromSnapshot snap).asks, 0 < pq.2 := by
    intro pq hm
    rcases List.mem_append.mp hm with hm | hm
    · exact pos_of_mem_updateSide hemp pq hm
    · exact pos_of_mem_updateSide hemp pq hm
  exact ⟨h1, h2, (qtyCheck_eq_true_iff _).mpr h1, (qtyCheck_eq_true_iff _).mpr h2⟩

/-- Witness for C10: the positivity check passes after a concrete delta
(containing a deletion pair) and after a concrete snapshot rebuild. -/
theorem zero_quantity_assert_unreachable_witness :
    qtyCheck (rawUpdate ⟨[(50, 2)], [(60, 3)]⟩ ⟨0, 30, 20, 2, [(50, 0)], [(65, 1)]⟩) = true ∧
    qtyCheck (rawFromSnapshot ⟨[(10, 1)], [(20, 1)], 5⟩) = true :=
  ⟨(zero_quantity_assert_unreachable ⟨[(50, 2)], [(60, 3)]⟩
      ⟨0, 30, 20, 2, [(50, 0)], [(65, 1)]⟩ ⟨[(10, 1)], [(20, 1)], 5⟩ (by decide)).2.2.1,
    (zero_quantity_assert_unreachable ⟨[(50, 2)], [(60, 3)]⟩
      ⟨0, 30, 20, 2, [(50, 0)], [(65, 1)]⟩ ⟨[(10, 1)], [(20, 1)], 5⟩ (by decide)).2.2.2⟩

end VertexClient
